import Mathlib

/-
Verification of the job-tracker extraction pipeline.

The model below is a shallow embedding of two pieces of the repository:

* `handleExtractDetails` (the React component's extraction pipeline): given a
  job-posting URL and/or pasted job-description text, it fetches the URL via a
  backend proxy, selects and normalizes text content, truncates it to a
  28,000-character cap, sends it to a structured-extraction call, and maps the
  parsed result onto a draft job record.

* The Express server's `GET /proxy` endpoint, which relays an HTTP fetch and
  reports failures as JSON error bodies.

Strings are modelled as `List Char` (JS strings are sequences of UTF-16 code
units; none of the verified properties depend on surrogate-pair details).
External effects (the proxy fetch, the DOM parse, the extraction call, the
clock) are modelled as oracle values carried in an `Env` record: each field
records what the corresponding external call would return during the run.
-/

abbrev Str := List Char

/-- Whitespace test matching the JavaScript regex class `\s` (and `String.trim`),
which covers ASCII whitespace, NBSP, the Unicode space separators, line/paragraph
separators, and the BOM. -/
def isWs (c : Char) : Bool :=
  c == ' ' || c == '\t' || c == '\n' || c == '\r' || c == '\x0b' || c == '\x0c' ||
  c == '\u00A0' || c == '\u1680' || ('\u2000' ≤ c && c ≤ '\u200A') ||
  c == '\u2028' || c == '\u2029' || c == '\u202F' || c == '\u205F' ||
  c == '\u3000' || c == '\uFEFF'

/-- Model of `s.replace(/\s\s+/g, ' ')` (line 251 of the component): every maximal
run of two or more whitespace characters is replaced by a single space; a lone
whitespace character is kept as-is (the regex needs at least two characters to
match).

The definition is a structural right-fold: when the first two characters are both
whitespace, the whole run they begin collapses to one `' '`, and the rest of the
output is exactly the output for the tail with its own run-representative head
removed (the head of `collapseWs (d :: rest)` is the single character that d's
whitespace run collapsed to). This formulation keeps the recursion structural so
the kernel can evaluate it. -/
def collapseWs : Str → Str
  | [] => []
  | [c] => [c]
  | c :: d :: rest =>
    if isWs c && isWs d then ' ' :: (collapseWs (d :: rest)).tail
    else c :: collapseWs (d :: rest)

/-- Drop trailing whitespace (the right half of JS `String.trim`). -/
def trimRight : Str → Str
  | [] => []
  | c :: r =>
    match trimRight r with
    | [] => if isWs c then [] else [c]
    | d :: t => c :: d :: t

/-- Model of JS `String.trim()`: drop leading and trailing whitespace. -/
def trimWs (l : Str) : Str := trimRight (l.dropWhile isWs)

/-- No two adjacent characters are both whitespace. -/
def noAdjWs : Str → Bool
  | [] => true
  | [_] => true
  | a :: b :: r => (!(isWs a && isWs b)) && noAdjWs (b :: r)

/-- The first character (if any) is not whitespace. -/
def noLeadWs : Str → Bool
  | [] => true
  | c :: _ => !isWs c

/-- The last character (if any) is not whitespace. -/
def noTrailWs (l : Str) : Bool := noLeadWs l.reverse

/-- The truncation cap on text submitted to the extraction call (line 270). -/
def cap : Nat := 28000

/-- Model of lines 270-273: text longer than the cap is cut to its first
`cap` characters by `substring(0, 28000)`; shorter text passes unchanged. -/
def truncate (l : Str) : Str := if cap < l.length then l.take cap else l

/-- JS `a || b` specialised to a possibly-null/absent string `a`: `null`,
`undefined` and the empty string are falsy and select `b`. -/
def jsFalsyOr (o : Option Str) (d : Str) : Str :=
  match o with
  | none => d
  | some s => if s = [] then d else s

/-- JS `a || ''` for a possibly-null/absent string field. -/
def jsOrEmpty (o : Option Str) : Str := jsFalsyOr o []

/-- Decimal rendering of a natural number, as JS template interpolation does. -/
def natToStr (n : Nat) : Str := (Nat.repr n).toList

/-- The JSON error body `{error, details}` the frontend tries to read from a
failed proxy response (lines 232-233); each field may be absent. -/
structure ProxyJsonErr where
  error : Option Str
  details : Option Str

/-- Outcome of the frontend's `fetch` of the proxy (line 227): either the fetch
itself throws (network/transport failure), or an HTTP response arrives with a
status, status text, body text, and - used only on the failure path - the result
of trying to parse the body as JSON (`none` when `response.json()` throws). -/
inductive ProxyResult where
  | transportError (msg : Str)
  | response (status : Nat) (statusText : Str) (body : Str) (jsonBody : Option ProxyJsonErr)

/-- What the DOM gives the pipeline after `DOMParser.parseFromString` and the
removal of script/style/nav/footer/header/aside/sidebar/stylesheet elements
(lines 238-241): `landmark` is the `innerText` of the first element matched by
`querySelector('main, article, .main-content, #main, [role="main"],
.job-description, #job-details')` (`none` when nothing matches), and `body` is
`document.body.innerText`. -/
structure Dom where
  landmark : Option Str
  body : Str

/-- The object `JSON.parse` yields from the extraction payload; every field may
be null or absent (the schema marks `location` nullable and only requires
`companyName` and `role`, which may still be empty strings). -/
structure ExtractedData where
  companyName : Option Str
  role : Option Str
  location : Option Str
  summary : Option Str

/-- The candidate content of a structurally-parsed extraction response:
either `result.candidates[0]?.content?.parts?.[0]?.text` is missing (or empty,
hence falsy - line 313), or it is present with `raw` its string value and
`parsed` the outcome of `JSON.parse(raw)` (`none` when the parse throws). -/
inductive AiEnvelope where
  | noCandidate
  | withText (raw : Str) (parsed : Option ExtractedData)

/-- Outcome of the frontend's `fetch` of the extraction endpoint (lines
301-311): either the fetch throws, or a response arrives; for an ok response the
JSON body's candidate content is recorded as an `AiEnvelope`. -/
inductive AiResult where
  | transportError (msg : Str)
  | response (status : Nat) (statusText : Str) (envelope : AiEnvelope)

/-- The draft job record `newJobData` built on lines 323-334. All fields are
plain strings. -/
structure JobDraft where
  companyName : Str
  role : Str
  location : Str
  notes : Str
  dateApplied : Str
  status : Str
  link : Str
  platformPosted : Str
  referralOptions : Str
  personPosted : Str

/-- Classification of a failed proxy fetch (spec: `ProxyError`): the fetch threw
before a response (`transport`), or a response with a non-2xx status arrived
(`http`, carrying the status and the detail string assembled on lines 230-235). -/
inductive ProxyError where
  | transport (msg : Str)
  | http (status : Nat) (detail : Str)

/-- Classification of a failed extraction call (spec: `ExtractionError`).
`requestTransport`/`requestHttp` refine the spec's `RequestError`;
`malformedResponse` is the line-341 branch (no candidate content);
`invalidJson` is the line-318 branch (`JSON.parse` of the embedded text threw),
carrying the raw embedded string. -/
inductive ExtractionError where
  | requestTransport (msg : Str)
  | requestHttp (status : Nat)
  | malformedResponse
  | invalidJson (raw : Str)

/-- The pipeline's terminal failures (spec taxonomy), one per distinct
`setExtractionError` / early-return path of `handleExtractDetails`:
`noInput` is line 265, `sourceFetchFailed` line 258, `emptyContent` line 254,
`extractionFailed` lines 343/347. -/
inductive PipelineError where
  | noInput
  | sourceFetchFailed (e : ProxyError)
  | emptyContent
  | extractionFailed (e : ExtractionError)

/-- The external world of one pipeline run: what each external call would
return, plus the clock. `utcToday` is the calendar date `new Date().toISOString()`
reports (UTC); `localToday` is the calendar date in the browser's local time
zone at the same instant - the code never reads it, but the spec talks about it. -/
structure Env where
  proxy : ProxyResult
  dom : Dom
  ai : AiResult
  utcToday : Str
  localToday : Str

/-- Lines 243-249: take the landmark's `innerText` if a landmark matched, else
the body text; if the chosen text is falsy (empty) or its trimmed length is
below 50, fall back to the full body text. -/
def selectContent (dom : Dom) : Str :=
  let t := match dom.landmark with
    | some s => s
    | none => dom.body
  if t = [] ∨ (trimWs t).length < 50 then dom.body else t

/-- Line 251 applied to the selected content: collapse whitespace runs, then trim. -/
def urlNormalize (dom : Dom) : Str := trimWs (collapseWs (selectContent dom))

/-- Lines 230-234: the detail string reported for a non-ok proxy response -
`errorData.details || errorData.error || response.statusText`, with the status
text alone when the error body is not parseable JSON. -/
def proxyErrorDetail (jsonBody : Option ProxyJsonErr) (statusText : Str) : Str :=
  match jsonBody with
  | none => statusText
  | some j => jsFalsyOr j.details (jsFalsyOr j.error statusText)

/-- `response.ok`: status in the 2xx range. -/
def isOk (status : Nat) : Bool := 200 ≤ status && status ≤ 299

/-- The URL branch's try-block (lines 225-261): classify the proxy fetch
outcome; on an ok response, select content and normalize it, failing when the
normalized text is blank (the line-253 guard re-trims `textToProcess`, which is
already trimmed). -/
def fetchPhase : ProxyResult → Dom → Except PipelineError Str
  | .transportError msg, _ => .error (.sourceFetchFailed (.transport msg))
  | .response status statusText _body jsonBody, dom =>
    if isOk status then
      if trimWs (urlNormalize dom) = [] then .error .emptyContent
      else .ok (urlNormalize dom)
    else .error (.sourceFetchFailed (.http status (proxyErrorDetail jsonBody statusText)))

/-- Lines 224-268: produce `textToProcess` as it stands after the
URL/pasted-text branching (just before the truncation on line 270), or the
terminal error of that phase. The URL branch is taken exactly when the trimmed
URL is non-empty; the pasted text is consulted only otherwise. -/
def sourceText (env : Env) (url pasted : Str) : Except PipelineError Str :=
  if trimWs url ≠ [] then fetchPhase env.proxy env.dom
  else if trimWs pasted ≠ [] then .ok (trimWs pasted)
  else .error .noInput

/-- Lines 313-321: validation of an ok extraction response's candidate content.
No truthy candidate text is the unexpected-format branch (line 341); candidate
text whose `JSON.parse` throws is the invalid-JSON branch (line 318); otherwise
the parsed object is accepted. -/
def handleEnvelope : AiEnvelope → Except PipelineError ExtractedData
  | .noCandidate => .error (.extractionFailed .malformedResponse)
  | .withText raw none => .error (.extractionFailed (.invalidJson raw))
  | .withText _raw (some ed) => .ok ed

/-- Lines 300-321: the extraction call. A thrown fetch or a non-ok status is a
request failure; an ok response's payload is validated by `handleEnvelope`. -/
def extractPhase : AiResult → Except PipelineError ExtractedData
  | .transportError msg => .error (.extractionFailed (.requestTransport msg))
  | .response status _statusText envelope =>
    if isOk status then handleEnvelope envelope
    else .error (.extractionFailed (.requestHttp status))

/-- The extraction call's outcome in environment `env`. -/
def extract (env : Env) : Except PipelineError ExtractedData := extractPhase env.ai

/-- The fixed initial status `JobStatus.SAVED` (line 46 / line 329). -/
def statusSaved : Str := "Saved (Not Applied)".toList

/-- Lines 323-334, `newJobData`: map the parsed extraction object onto a draft
record. Each extracted field goes through `x || ''`; `link` is
`jobPostUrl.trim() || ''` (the caller passes the trimmed URL, and trimming an
empty string already yields the empty string); `dateApplied` is
`new Date().toISOString().split('T')[0]`, i.e. the UTC calendar date. -/
def mkDraft (ed : ExtractedData) (trimmedUrl : Str) (today : Str) : JobDraft where
  companyName := jsOrEmpty ed.companyName
  role := jsOrEmpty ed.role
  location := jsOrEmpty ed.location
  notes := jsOrEmpty ed.summary
  dateApplied := today
  status := statusSaved
  link := trimmedUrl
  platformPosted := []
  referralOptions := []
  personPosted := []

/-- Observable outcome of one `handleExtractDetails` run: the result (draft or
classified error), whether the proxy fetch was attempted, whether the
extraction call was attempted, the normalized text (`textToProcess` as of line
268, before truncation) and the text actually submitted to the extraction call
(after truncation); the latter two are `none` when the run failed before the
extraction call. -/
structure RunOutcome where
  result : Except PipelineError JobDraft
  proxyCalled : Bool
  aiCalled : Bool
  normalized : Option Str
  submitted : Option Str

/-- The whole of `handleExtractDetails` (lines 215-351) as a function of the
inputs and the environment oracle. -/
def run (env : Env) (url pasted : Str) : RunOutcome :=
  match sourceText env url pasted with
  | .error e =>
    { result := .error e
      proxyCalled := decide (trimWs url ≠ [])
      aiCalled := false
      normalized := none
      submitted := none }
  | .ok t =>
    let t2 := truncate t
    { result :=
        match extract env with
        | .error e => .error e
        | .ok ed => .ok (mkDraft ed (trimWs url) env.utcToday)
      proxyCalled := decide (trimWs url ≠ [])
      aiCalled := true
      normalized := some t
      submitted := some t2 }

/-- Outcome of the proxy server's upstream `fetch` of the target URL
(server.js line 29): transport failure, or a response with status, status text
and body text. -/
inductive UpstreamResult where
  | transportError (msg : Str)
  | response (status : Nat) (statusText : Str) (body : Str)

/-- Body of a reply from the `/proxy` endpoint: raw text (`res.send`) or a JSON
object `{error, details?}` (`res.json`). -/
inductive ProxyBody where
  | text (s : Str)
  | jsonErr (error : Str) (details : Option Str)

/-- Observable reply of one `/proxy` request: HTTP status, whether the upstream
fetch was attempted, and the body. -/
structure ProxyReply where
  status : Nat
  fetched : Bool
  body : ProxyBody

/-- server.js line 23: the 400 error message for a missing `url` parameter. -/
def urlRequiredMsg : Str := "A \"url\" query parameter is required.".toList

/-- server.js line 46: the error field of every 500 reply. -/
def fetchFailedMsg : Str := "Failed to fetch the provided URL.".toList

/-- server.js line 38: the message of the error thrown for an upstream non-2xx
response, which becomes the 500 reply's `details`. -/
def failedFetchDetail (status : Nat) (statusText : Str) : Str :=
  "Failed to fetch: ".toList ++ natToStr status ++ " ".toList ++ statusText

/-- The try/catch around the upstream fetch (server.js lines 28-47): a 2xx
upstream response forwards the body text with status 200; an upstream non-2xx
response throws (line 38) and is caught by the same catch block as a transport
failure, so both produce a 500 with a JSON `{error, details}` body, `details`
holding the thrown message. -/
def relayUpstream : UpstreamResult → ProxyReply
  | .transportError msg => ⟨500, true, .jsonErr fetchFailedMsg (some msg)⟩
  | .response status statusText body =>
    if isOk status then ⟨200, true, .text body⟩
    else ⟨500, true, .jsonErr fetchFailedMsg (some (failedFetchDetail status statusText))⟩

/-- The `/proxy` endpoint handler (server.js lines 19-48). `urlParam` is
`req.query.url` (`none` when the parameter is absent; the empty string is falsy
in the `!urlToFetch` guard, so it is rejected the same way, without a fetch). -/
def proxyEndpoint : Option Str → UpstreamResult → ProxyReply
  | none, _ => ⟨400, false, .jsonErr urlRequiredMsg none⟩
  | some u, upstream =>
    if u = [] then ⟨400, false, .jsonErr urlRequiredMsg none⟩
    else relayUpstream upstream

/-- Modelled from the spec's words, for comparison with the code (claim C3):
the `NormalizedText` invariant as the specification states it - every sequence
of whitespace characters has been collapsed to a single space (hence no two
adjacent whitespace characters and every whitespace character is a plain
space), no leading or trailing whitespace, and length at most the cap. -/
def specNormalizedText (l : Str) : Bool :=
  noAdjWs l && l.all (fun c => !isWs c || c == ' ') &&
  noLeadWs l && noTrailWs l && decide (l.length ≤ cap)

/-- Concrete extraction result of Scenario A of the specification. -/
def edScenarioA : ExtractedData :=
  { companyName := some "Acme Corp".toList
    role := some "Senior Engineer".toList
    location := some "Remote".toList
    summary := some "Build distributed systems.".toList }

/-- Scenario A's pasted text. -/
def pastedScenarioA : Str :=
  "Senior Engineer at Acme Corp, Remote. Build distributed systems.".toList

/-- A concrete environment for runs that reach a successful extraction: the
extraction call returns 200 with candidate text parsing to `edScenarioA`. The
clock is taken at an instant where the UTC calendar date is already one day
ahead of the local one (e.g. 23:30 in a UTC-5 zone). -/
def envOkA : Env :=
  { proxy := .response 200 "OK".toList "<html></html>".toList none
    dom := { landmark := none, body := [] }
    ai := .response 200 "OK".toList
      (.withText "json-text".toList (some edScenarioA))
    utcToday := "2026-10-12".toList
    localToday := "2026-10-11".toList }

/-- A concrete environment whose extraction call returns Scenario D's payload:
candidate text is the string from the spec and `JSON.parse` of it throws. -/
def envInvalidJson : Env :=
  { envOkA with
    ai := .response 200 "OK".toList (.withText "\x7binvalid json".toList none) }

/-- A concrete environment whose extraction call returns a payload with no
candidate content. -/
def envNoCandidate : Env :=
  { envOkA with ai := .response 200 "OK".toList .noCandidate }

/-- A concrete environment whose proxy fetch returns HTTP 404 with a JSON error
body (Scenario B). -/
def env404 : Env :=
  { envOkA with
    proxy := .response 404 "Not Found".toList "{}".toList
      (some { error := some "Failed to fetch the provided URL.".toList
              details := some "Failed to fetch: 404 Not Found".toList }) }

/-- A concrete environment whose proxy fetch succeeds but whose document text
is pure whitespace, so normalization yields the empty string (Scenario C). -/
def envBlankBody : Env :=
  { envOkA with
    proxy := .response 200 "OK".toList "<html>   </html>".toList none
    dom := { landmark := none, body := "   ".toList } }

/-- Scenario E's input: a pasted text of 40,000 non-whitespace characters. -/
def bigText : Str := List.replicate 40000 'a'

/-- A landmark text comfortably longer than the 50-character minimum. -/
def longLandmarkText : Str :=
  "A sufficiently long job description landmark, well over fifty characters in total length.".toList

/-- A document whose landmark matched with a long text. -/
def domLong : Dom := { landmark := some longLandmarkText, body := "body text".toList }

/-! Helper lemmas about the text-processing primitives. -/

theorem dropWhile_isWs_head (l : Str) (c : Char) (t : Str)
    (h : l.dropWhile isWs = c :: t) : isWs c = false := by
  induction l with
  | nil => simp at h
  | cons a r ih =>
    by_cases ha : isWs a
    · rw [List.dropWhile_cons_of_pos ha] at h
      exact ih h
    · rw [List.dropWhile_cons_of_neg ha] at h
      cases h
      simpa using ha

theorem length_dropWhile_isWs_le (l : Str) : (l.dropWhile isWs).length ≤ l.length := by
  induction l with
  | nil => simp
  | cons c r ih =>
    by_cases h : isWs c
    · rw [List.dropWhile_cons_of_pos h]
      exact Nat.le_trans ih (Nat.le_succ _)
    · rw [List.dropWhile_cons_of_neg h]

theorem trimRight_head (c : Char) (r : Str) :
    trimRight (c :: r) = [] ∨ ∃ t, trimRight (c :: r) = c :: t := by
  rcases htr : trimRight r with _ | ⟨d, t⟩
  · by_cases h : isWs c
    · left
      simp [trimRight, htr, h]
    · right
      exact ⟨[], by simp [trimRight, htr, h]⟩
  · right
    exact ⟨d :: t, by simp [trimRight, htr]⟩

theorem trimRight_length_le (l : Str) : (trimRight l).length ≤ l.length := by
  induction l with
  | nil => simp [trimRight]
  | cons c r ih =>
    rcases htr : trimRight r with _ | ⟨d, t⟩
    · by_cases h : isWs c <;> simp [trimRight, htr, h]
    · rw [htr] at ih
      simp only [trimRight, htr]
      simp only [List.length_cons] at ih ⊢
      omega

theorem trimWs_length_le (l : Str) : (trimWs l).length ≤ l.length :=
  Nat.le_trans (trimRight_length_le _) (length_dropWhile_isWs_le l)

theorem noAdjWs_tail (c : Char) (l : Str) (h : noAdjWs (c :: l) = true) :
    noAdjWs l = true := by
  cases l with
  | nil => rfl
  | cons d r =>
    simp only [noAdjWs, Bool.and_eq_true] at h
    exact h.2

theorem noAdjWs_take (l : Str) : ∀ n : Nat, noAdjWs l = true → noAdjWs (l.take n) = true := by
  induction l with
  | nil => intro n _; simp [noAdjWs]
  | cons c r ih =>
    intro n h
    cases n with
    | zero => rfl
    | succ m =>
      cases r with
      | nil => simp [noAdjWs]
      | cons d t =>
        cases m with
        | zero => simp [noAdjWs]
        | succ k =>
          simp only [noAdjWs, Bool.and_eq_true] at h
          have h2 := ih (k + 1) h.2
          simp only [List.take_succ_cons] at h2 ⊢
          simp only [noAdjWs, Bool.and_eq_true]
          exact ⟨h.1, h2⟩

theorem noAdjWs_dropWhile (l : Str) (h : noAdjWs l = true) :
    noAdjWs (l.dropWhile isWs) = true := by
  induction l with
  | nil => exact h
  | cons c r ih =>
    by_cases hc : isWs c
    · rw [List.dropWhile_cons_of_pos hc]
      exact ih (noAdjWs_tail c r h)
    · rwa [List.dropWhile_cons_of_neg hc]

theorem noAdjWs_trimRight (l : Str) (h : noAdjWs l = true) :
    noAdjWs (trimRight l) = true := by
  induction l with
  | nil => exact h
  | cons c r ih =>
    have ihr := ih (noAdjWs_tail c r h)
    rcases htr : trimRight r with _ | ⟨d, t⟩
    · by_cases hc : isWs c <;> simp [trimRight, htr, hc, noAdjWs]
    · rw [htr] at ihr
      simp only [trimRight, htr]
      cases r with
      | nil => simp [trimRight] at htr
      | cons x r' =>
        have hx : d = x := by
          rcases trimRight_head x r' with h0 | ⟨t', ht'⟩
          · rw [h0] at htr; cases htr
          · rw [ht'] at htr
            exact (List.cons.injEq _ _ _ _ ▸ htr).1.symm
        simp only [noAdjWs, Bool.and_eq_true] at h ⊢
        refine ⟨?_, ihr⟩
        rw [hx]
        exact h.1

theorem noAdjWs_trimWs (l : Str) (h : noAdjWs l = true) :
    noAdjWs (trimWs l) = true :=
  noAdjWs_trimRight _ (noAdjWs_dropWhile l h)

theorem collapseWs_head (c : Char) (r : Str) :
    ∃ e t, collapseWs (c :: r) = e :: t ∧ isWs e = isWs c := by
  cases r with
  | nil => exact ⟨c, [], rfl, rfl⟩
  | cons d rest =>
    by_cases h : isWs c && isWs d
    · refine ⟨' ', (collapseWs (d :: rest)).tail, by simp [collapseWs, h], ?_⟩
      have hc : isWs c = true := (Bool.and_eq_true _ _ ▸ h).1
      rw [hc]
      rfl
    · exact ⟨c, collapseWs (d :: rest), by simp [collapseWs, h], rfl⟩

theorem collapseWs_noAdj (l : Str) : noAdjWs (collapseWs l) = true := by
  induction l using collapseWs.induct with
  | case1 => rfl
  | case2 c => rfl
  | case3 c d rest h ih =>
    rw [Bool.and_eq_true] at h
    obtain ⟨e, t, het, hws⟩ := collapseWs_head d rest
    rw [het] at ih
    simp only [collapseWs, h.1, h.2, Bool.and_self, if_pos, het, List.tail_cons]
    cases t with
    | nil => rfl
    | cons x t' =>
      simp only [noAdjWs, Bool.and_eq_true] at ih ⊢
      have hxf : isWs x = false := by
        rcases hx : isWs x with _ | _
        · rfl
        · rw [hws, h.2, hx] at ih
          simpa using ih.1
      refine ⟨?_, ih.2⟩
      simp [hxf]
  | case4 c d rest h ih =>
    obtain ⟨e, t, het, hws⟩ := collapseWs_head d rest
    have hcd : (isWs c && isWs d) = false := by
      rcases hcc : (isWs c && isWs d) with _ | _
      · rfl
      · exact absurd hcc h
    have hstep : collapseWs (c :: d :: rest) = c :: collapseWs (d :: rest) := by
      simp [collapseWs, hcd]
    rw [hstep, het]
    rw [het] at ih
    simp only [noAdjWs, Bool.and_eq_true]
    exact ⟨by simp [hws, hcd], ih⟩

theorem noLeadWs_take (l : Str) (n : Nat) (h : noLeadWs l = true) :
    noLeadWs (l.take n) = true := by
  cases l with
  | nil => simp [noLeadWs]
  | cons c r =>
    cases n with
    | zero => rfl
    | succ m => exact h

theorem noLeadWs_trimWs (l : Str) : noLeadWs (trimWs l) = true := by
  unfold trimWs
  rcases hd : l.dropWhile isWs with _ | ⟨c, t⟩
  · rfl
  · have hc := dropWhile_isWs_head l c t hd
    rcases trimRight_head c t with h0 | ⟨t', ht'⟩
    · rw [h0]; rfl
    · rw [ht']
      simp [noLeadWs, hc]

theorem truncate_eq_take (l : Str) : truncate l = l.take cap := by
  unfold truncate
  by_cases h : cap < l.length
  · rw [if_pos h]
  · rw [if_neg h, List.take_of_length_le (Nat.le_of_not_lt h)]

theorem truncate_length_le (l : Str) : (truncate l).length ≤ cap := by
  rw [truncate_eq_take, List.length_take]
  exact Nat.min_le_left _ _

theorem trimRight_of_no_ws (l : Str) (h : ∀ c ∈ l, isWs c = false) : trimRight l = l := by
  induction l with
  | nil => rfl
  | cons c r ih =>
    have hc : isWs c = false := h c (List.mem_cons_self c r)
    have ihr : trimRight r = r := ih (fun x hx => h x (List.mem_cons_of_mem c hx))
    cases r with
    | nil => simp [trimRight, hc]
    | cons d t =>
      have hu : trimRight (c :: d :: t) =
          match trimRight (d :: t) with
          | [] => if isWs c then [] else [c]
          | e :: s => c :: e :: s := rfl
      rw [hu, ihr]

theorem trimWs_of_no_ws (l : Str) (h : ∀ c ∈ l, isWs c = false) : trimWs l = l := by
  have hdrop : l.dropWhile isWs = l := by
    cases l with
    | nil => rfl
    | cons c r =>
      exact List.dropWhile_cons_of_neg (by simp [h c (List.mem_cons_self c r)])
  unfold trimWs
  rw [hdrop]
  exact trimRight_of_no_ws l h

/-! Unfolding lemmas for `run`. -/

theorem run_of_sourceError (env : Env) (url pasted : Str) (e : PipelineError)
    (h : sourceText env url pasted = .error e) :
    run env url pasted =
      ⟨.error e, decide (trimWs url ≠ []), false, none, none⟩ := by
  unfold run
  rw [h]

theorem run_of_sourceOk (env : Env) (url pasted t : Str)
    (h : sourceText env url pasted = .ok t) :
    run env url pasted =
      ⟨(match extract env with
        | .error e => .error e
        | .ok ed => .ok (mkDraft ed (trimWs url) env.utcToday)),
        decide (trimWs url ≠ []), true, some t, some (truncate t)⟩ := by
  unfold run
  rw [h]

theorem run_proxyCalled (env : Env) (url pasted : Str) :
    (run env url pasted).proxyCalled = decide (trimWs url ≠ []) := by
  rcases hst : sourceText env url pasted with e | t
  · rw [run_of_sourceError env url pasted e hst]
  · rw [run_of_sourceOk env url pasted t hst]

theorem sourceText_ok (env : Env) (url pasted t : Str)
    (h : sourceText env url pasted = .ok t) :
    (trimWs url ≠ [] ∧ t = urlNormalize env.dom) ∨
    (trimWs url = [] ∧ t = trimWs pasted) := by
  by_cases hu : trimWs url = []
  · right
    refine ⟨hu, ?_⟩
    unfold sourceText at h
    rw [if_neg (by simp [hu])] at h
    by_cases hp : trimWs pasted ≠ []
    · rw [if_pos hp] at h
      injection h with h2
      exact h2.symm
    · rw [if_neg hp] at h
      cases h
  · left
    refine ⟨hu, ?_⟩
    unfold sourceText at h
    rw [if_pos hu] at h
    rcases hpx : env.proxy with m | ⟨s, st, b, j⟩ <;> rw [hpx] at h
    · simp only [fetchPhase] at h
      cases h
    · simp only [fetchPhase] at h
      by_cases hok : isOk s = true
      · rw [if_pos hok] at h
        by_cases hblank : trimWs (urlNormalize env.dom) = []
        · rw [if_pos hblank] at h
          cases h
        · rw [if_neg hblank] at h
          injection h with h2
          exact h2.symm
      · rw [if_neg hok] at h
        cases h

/-! The claims. -/

/-- Claim C1: for every invocation of the extraction pipeline, if the URL field
is non-blank after trimming then the URL path is used exclusively and the
pasted text is never consulted (the outcome is the same for every pasted text,
and the proxy fetch is made); if the URL is blank and the pasted text is
non-blank, the trimmed pasted text is used directly as the normalized text and
no proxy fetch is made; if both are blank, the run fails with `NoInputError`
immediately and neither the proxy fetch nor the extraction call is made. -/
theorem claim_C1_source_precedence (env : Env) (url pasted : Str) :
    (trimWs url ≠ [] →
      (∀ pasted', run env url pasted' = run env url pasted) ∧
      (run env url pasted).proxyCalled = true) ∧
    (trimWs url = [] → trimWs pasted ≠ [] →
      (run env url pasted).normalized = some (trimWs pasted) ∧
      (run env url pasted).proxyCalled = false) ∧
    (trimWs url = [] → trimWs pasted = [] →
      run env url pasted = ⟨.error .noInput, false, false, none, none⟩) := by
  refine ⟨fun hu => ⟨fun pasted' => ?_, ?_⟩, fun hu hp => ?_, fun hu hp => ?_⟩
  · have hsrc : sourceText env url pasted' = sourceText env url pasted := by
      unfold sourceText
      rw [if_pos hu, if_pos hu]
    rcases hst : sourceText env url pasted with e | t
    · rw [run_of_sourceError env url pasted e hst,
        run_of_sourceError env url pasted' e (hsrc.trans hst)]
    · rw [run_of_sourceOk env url pasted t hst,
        run_of_sourceOk env url pasted' t (hsrc.trans hst)]
  · rw [run_proxyCalled]
    simp [hu]
  · have hst : sourceText env url pasted = .ok (trimWs pasted) := by
      unfold sourceText
      rw [if_neg (by simp [hu]), if_pos hp]
    rw [run_of_sourceOk env url pasted (trimWs pasted) hst]
    simp [hu]
  · have hst : sourceText env url pasted = .error .noInput := by
      unfold sourceText
      rw [if_neg (by simp [hu]), if_neg (by simp [hp])]
    rw [run_of_sourceError env url pasted .noInput hst]
    simp [hu]

/-- Witness for C1: with the URL `" u "` the outcome is the same whatever the
pasted text is; with a blank URL and pasted text `"hi"` the normalized text is
`"hi"` and the proxy is not called; with both blank the run is exactly the
`NoInputError` outcome with neither network call made. -/
theorem claim_C1_source_precedence_witness :
    run envOkA " u ".toList "x".toList = run envOkA " u ".toList "y".toList ∧
    ((run envOkA [] "hi".toList).normalized = some "hi".toList ∧
      (run envOkA [] "hi".toList).proxyCalled = false) ∧
    run envOkA [] " ".toList = ⟨.error .noInput, false, false, none, none⟩ := by
  refine ⟨?_, ?_, ?_⟩
  · exact ((claim_C1_source_precedence envOkA " u ".toList "y".toList).1
      (by decide)).1 "x".toList
  · exact (claim_C1_source_precedence envOkA [] "hi".toList).2.1
      (by decide) (by decide)
  · exact (claim_C1_source_precedence envOkA [] " ".toList).2.2
      (by decide) (by decide)

/-- Claim C2: whenever a run reaches the extraction call with normalized text
`n`, the submitted text is the first `cap` characters of `n`; text of length at
most the cap is submitted unchanged; text longer than the cap is submitted as
exactly its first `cap` characters, with length exactly `cap` (no ellipsis, no
word-boundary adjustment - the submitted text is literally `n.take cap`). -/
theorem claim_C2_truncation (env : Env) (url pasted n : Str)
    (h : (run env url pasted).normalized = some n) :
    (run env url pasted).submitted = some (n.take cap) ∧
    (n.length ≤ cap → (run env url pasted).submitted = some n) ∧
    (cap < n.length →
      (run env url pasted).submitted = some (n.take cap) ∧ (n.take cap).length = cap) := by
  rcases hst : sourceText env url pasted with e | t
  · rw [run_of_sourceError env url pasted e hst] at h
    cases h
  · rw [run_of_sourceOk env url pasted t hst] at h
    injection h with h2
    obtain rfl : t = n := h2
    rw [run_of_sourceOk env url pasted t hst]
    refine ⟨by rw [truncate_eq_take], fun hle => ?_, fun hgt => ?_⟩
    · rw [truncate_eq_take, List.take_of_length_le hle]
    · refine ⟨by rw [truncate_eq_take], ?_⟩
      rw [List.length_take]
      exact Nat.min_eq_left (Nat.le_of_lt hgt)

/-- Witness for C2 at Scenario E: pasted text of 40,000 characters (all `'a'`)
is normalized to itself and submitted as exactly its first 28,000 characters. -/
theorem claim_C2_truncation_witness :
    (run envOkA [] bigText).submitted = some (List.replicate cap 'a') ∧
    (List.replicate cap 'a').length = cap := by
  have hbig : trimWs bigText = bigText :=
    trimWs_of_no_ws _ (fun c hc => by rw [List.eq_of_mem_replicate hc]; decide)
  have hne : bigText ≠ [] := by
    intro hEq
    have h0 : bigText.length = 0 := by rw [hEq]; rfl
    rw [bigText, List.length_replicate] at h0
    exact absurd h0 (by decide)
  have hst : sourceText envOkA [] bigText = .ok bigText := by
    unfold sourceText
    rw [if_neg (fun hc => hc rfl), if_pos (by rw [hbig]; exact hne), hbig]
  have hnorm : (run envOkA [] bigText).normalized = some bigText := by
    rw [run_of_sourceOk envOkA [] bigText bigText hst]
  have hlen : cap < bigText.length := by
    rw [bigText, List.length_replicate]
    decide
  have h := (claim_C2_truncation envOkA [] bigText bigText hnorm).2.2 hlen
  have htake : bigText.take cap = List.replicate cap 'a' := by
    rw [bigText, List.take_replicate]
    congr 1
  exact ⟨htake ▸ h.1, htake ▸ h.2⟩

/-- Counterexample to claim C3 as stated: the pasted text `"a  b"` (with two
interior spaces) is handed to the extraction call verbatim, because the
pasted-text path only trims - it never collapses whitespace runs - so the
submitted text violates the claimed NormalizedText invariant
(`specNormalizedText`, the invariant in the specification's words). -/
theorem claim_C3_counterexample :
    (run envOkA [] "a  b".toList).submitted = some "a  b".toList ∧
    specNormalizedText "a  b".toList = false := by
  exact ⟨rfl, by decide⟩

/-- Claim C3, amended: the text handed to the extraction call always has length
at most the cap and no leading whitespace; on the URL path it additionally has
no two adjacent whitespace characters (single non-space whitespace characters
such as a lone newline may remain, because the `\s\s+` regex needs two
characters to match); on the pasted-text path it is just the trimmed pasted
text cut to the cap, with interior whitespace preserved verbatim. (Trailing
whitespace can also survive cap truncation on either path, since the cut pays
no attention to what character it lands on.) -/
theorem claim_C3_normalized_invariant (env : Env) (url pasted n : Str)
    (h : (run env url pasted).submitted = some n) :
    n.length ≤ cap ∧ noLeadWs n = true ∧
    (trimWs url ≠ [] → noAdjWs n = true) ∧
    (trimWs url = [] → n = (trimWs pasted).take cap) := by
  rcases hst : sourceText env url pasted with e | t
  · rw [run_of_sourceError env url pasted e hst] at h
    cases h
  · rw [run_of_sourceOk env url pasted t hst] at h
    injection h with h2
    obtain rfl : truncate t = n := h2
    rcases sourceText_ok env url pasted t hst with ⟨hu, rfl⟩ | ⟨hu, rfl⟩
    · refine ⟨truncate_length_le _, ?_, fun _ => ?_, fun hu0 => absurd hu0 hu⟩
      · rw [truncate_eq_take]
        exact noLeadWs_take _ _ (noLeadWs_trimWs _)
      · rw [truncate_eq_take]
        exact noAdjWs_take _ _ (noAdjWs_trimWs _ (collapseWs_noAdj _))
    · refine ⟨truncate_length_le _, ?_, fun hu1 => absurd hu hu1, fun _ => ?_⟩
      · rw [truncate_eq_take]
        exact noLeadWs_take _ _ (noLeadWs_trimWs _)
      · rw [truncate_eq_take]

/-- Witness for the amended C3 at a concrete pasted-text run: the submitted
text for pasted input `"  a\tb "` is `"a\tb"`, of length at most the cap, with
no leading whitespace, and equal to the trimmed pasted text cut to the cap. -/
theorem claim_C3_normalized_invariant_witness :
    ("a\tb".toList : Str).length ≤ cap ∧ noLeadWs "a\tb".toList = true ∧
    ("a\tb".toList : Str) = (trimWs "  a\tb ".toList).take cap := by
  have h := claim_C3_normalized_invariant envOkA [] "  a\tb ".toList "a\tb".toList rfl
  exact ⟨h.1, h.2.1, h.2.2.2 rfl⟩

/-- Claim C4: with a non-blank URL, if the proxy fetch throws, the run stops
with `SourceFetchFailed` carrying a `TransportError`; if the proxy answers with
a non-2xx status, the run stops with `SourceFetchFailed` carrying an
`HttpError` with that status and the detail from the error body (falling back
to the status line text when the body is not parseable JSON). In both cases the
outcome is the same for every pasted text - no fallback to pasted text - and
the extraction call is never attempted (`aiCalled = false`). -/
theorem claim_C4_fetch_failure (env : Env) (url pasted m : Str) (s : Nat)
    (st b : Str) (j : Option ProxyJsonErr) (hu : trimWs url ≠ []) :
    (env.proxy = .transportError m →
      run env url pasted =
        ⟨.error (.sourceFetchFailed (.transport m)), true, false, none, none⟩) ∧
    (env.proxy = .response s st b j → isOk s = false →
      run env url pasted =
        ⟨.error (.sourceFetchFailed (.http s (proxyErrorDetail j st))),
          true, false, none, none⟩) := by
  constructor
  · intro hp
    have hst : sourceText env url pasted = .error (.sourceFetchFailed (.transport m)) := by
      unfold sourceText
      rw [if_pos hu, hp]
      simp only [fetchPhase]
    rw [run_of_sourceError env url pasted _ hst]
    simp [hu]
  · intro hp hok
    have hst : sourceText env url pasted =
        .error (.sourceFetchFailed (.http s (proxyErrorDetail j st))) := by
      unfold sourceText
      rw [if_pos hu, hp]
      simp only [fetchPhase]
      rw [if_neg (by simp [hok])]
    rw [run_of_sourceError env url pasted _ hst]
    simp [hu]

/-- Witness for C4 at Scenario B: the proxy answers 404 with a JSON error body;
the run is exactly the `SourceFetchFailed`/`HttpError{404}` outcome with the
body's `details` string, the extraction call is not made, and the pasted text
`"p"` is ignored. -/
theorem claim_C4_fetch_failure_witness :
    run env404 "http://x".toList "p".toList =
      ⟨.error (.sourceFetchFailed
          (.http 404 "Failed to fetch: 404 Not Found".toList)),
        true, false, none, none⟩ := by
  exact (claim_C4_fetch_failure env404 "http://x".toList "p".toList []
    404 "Not Found".toList "{}".toList
    (some { error := some "Failed to fetch the provided URL.".toList
            details := some "Failed to fetch: 404 Not Found".toList })
    (by decide)).2 rfl (by decide)

/-- Claim C5: with a non-blank URL and a successful proxy fetch whose body
yields blank text after content selection and whitespace normalization, the run
fails with `EmptyContentError` and the extraction call is never attempted
(`aiCalled = false`), whatever the pasted text. -/
theorem claim_C5_empty_content (env : Env) (url pasted : Str) (s : Nat)
    (st b : Str) (j : Option ProxyJsonErr)
    (hu : trimWs url ≠ []) (hp : env.proxy = .response s st b j)
    (hok : isOk s = true) (hblank : trimWs (urlNormalize env.dom) = []) :
    run env url pasted = ⟨.error .emptyContent, true, false, none, none⟩ := by
  have hst : sourceText env url pasted = .error .emptyContent := by
    unfold sourceText
    rw [if_pos hu, hp]
    simp only [fetchPhase]
    rw [if_pos hok, if_pos hblank]
  rw [run_of_sourceError env url pasted _ hst]
  simp [hu]

/-- Witness for C5 at Scenario C: the proxy returns 200 but the document's text
is pure whitespace, so normalization yields the empty string and the run is
exactly the `EmptyContentError` outcome with no extraction call. -/
theorem claim_C5_empty_content_witness :
    run envBlankBody "http://x".toList "p".toList =
      ⟨.error .emptyContent, true, false, none, none⟩ := by
  exact claim_C5_empty_content envBlankBody "http://x".toList "p".toList
    200 "OK".toList "<html>   </html>".toList none
    (by decide) rfl (by decide) (by decide)

/-- Claim C6: in a run that reaches the extraction call, if the call's payload
lacks the expected response envelope (no truthy candidate content) the run
fails with `MalformedResponseError`; if the embedded extraction string is not
valid JSON the run fails with `InvalidJsonError`. In both cases the result is
an error, so no draft record is produced - the payload is never partially
accepted. -/
theorem claim_C6_parse_failures (env : Env) (url pasted n : Str) (s : Nat)
    (st raw : Str) (hsrc : sourceText env url pasted = .ok n) :
    (env.ai = .response s st .noCandidate → isOk s = true →
      (run env url pasted).result = .error (.extractionFailed .malformedResponse)) ∧
    (env.ai = .response s st (.withText raw none) → isOk s = true →
      (run env url pasted).result = .error (.extractionFailed (.invalidJson raw))) := by
  constructor <;> intro hai hok <;>
    rw [run_of_sourceOk env url pasted n hsrc] <;>
    simp [extract, extractPhase, handleEnvelope, hai, hok]

/-- Witness for C6 at Scenario D: the extraction call answers 200 with embedded
text `"\x7binvalid json"` whose parse throws; the run's result is exactly the
`InvalidJsonError` failure carrying that raw string - no draft. -/
theorem claim_C6_parse_failures_witness :
    (run envInvalidJson [] pastedScenarioA).result =
      .error (.extractionFailed (.invalidJson "\x7binvalid json".toList)) := by
  exact (claim_C6_parse_failures envInvalidJson [] pastedScenarioA
    (trimWs pastedScenarioA) 200 "OK".toList "\x7binvalid json".toList rfl).2
    rfl (by decide)

/-- Counterexample to claim C7 as stated: at an instant where the UTC calendar
date (`2026-10-12`, what `new Date().toISOString()` reports) differs from the
local calendar date (`2026-10-11`, e.g. 23:30 in a UTC-5 time zone), a
successful run produces a draft whose `dateApplied` is NOT today's local date -
the code derives the date from `toISOString`, which is UTC. -/
theorem claim_C7_counterexample :
    ∃ d, (run envOkA [] pastedScenarioA).result = .ok d ∧
      d.dateApplied ≠ envOkA.localToday := by
  refine ⟨mkDraft edScenarioA [] envOkA.utcToday, rfl, by decide⟩

/-- Claim C7, amended: on every successful run the draft record has status
exactly `"Saved (Not Applied)"`, link equal to the trimmed original URL (which
is the empty string on the pasted-text path), notes filled from the extracted
summary (empty string when null or absent), `platformPosted`,
`referralOptions` and `personPosted` all empty strings, and `dateApplied` set
to today's date in UTC (the calendar date of `new Date().toISOString()`), not
the local calendar date. -/
theorem claim_C7_draft_shape (env : Env) (url pasted n : Str) (s : Nat)
    (st raw : Str) (ed : ExtractedData)
    (hsrc : sourceText env url pasted = .ok n)
    (hai : env.ai = .response s st (.withText raw (some ed)))
    (hok : isOk s = true) :
    ∃ d, (run env url pasted).result = .ok d ∧
      d.status = statusSaved ∧
      d.link = trimWs url ∧
      d.notes = jsOrEmpty ed.summary ∧
      d.platformPosted = [] ∧
      d.referralOptions = [] ∧
      d.personPosted = [] ∧
      d.dateApplied = env.utcToday := by
  refine ⟨mkDraft ed (trimWs url) env.utcToday, ?_, rfl, rfl, rfl, rfl, rfl, rfl, rfl⟩
  rw [run_of_sourceOk env url pasted n hsrc]
  simp [extract, extractPhase, handleEnvelope, hai, hok]

/-- Witness for the amended C7 at Scenario A: pasted text about Acme Corp and
an extraction result with summary "Build distributed systems." yield a draft
with status `"Saved (Not Applied)"`, empty link, those notes, empty
platform/referral/person fields, and the UTC date of the run. -/
theorem claim_C7_draft_shape_witness :
    ∃ d, (run envOkA [] pastedScenarioA).result = .ok d ∧
      d.status = "Saved (Not Applied)".toList ∧
      d.link = ([] : Str) ∧
      d.notes = "Build distributed systems.".toList ∧
      d.platformPosted = ([] : Str) ∧
      d.referralOptions = ([] : Str) ∧
      d.personPosted = ([] : Str) ∧
      d.dateApplied = "2026-10-12".toList := by
  exact claim_C7_draft_shape envOkA [] pastedScenarioA
    (trimWs pastedScenarioA) 200 "OK".toList "json-text".toList edScenarioA
    rfl rfl (by decide)

/-- Claim C8: content selection tries a primary-content landmark and uses its
text; if no landmark matched, or the landmark's extracted text is empty, or its
length is below 50 characters, it falls back to the full body text; a landmark
text whose trimmed length reaches 50 is used as-is. (The code's escalation
check measures the trimmed text, `textToProcess.trim().length < 50`; a raw
length below 50 forces the fallback a fortiori since trimming only shortens.) -/
theorem claim_C8_content_selection (dom : Dom) :
    (dom.landmark = none → selectContent dom = dom.body) ∧
    (∀ s, dom.landmark = some s →
      (s = [] → selectContent dom = dom.body) ∧
      (s.length < 50 → selectContent dom = dom.body) ∧
      (50 ≤ (trimWs s).length → selectContent dom = s)) := by
  constructor
  · intro h
    unfold selectContent
    rw [h]
    exact ite_self _
  · intro s h
    refine ⟨fun hs => ?_, fun hlen => ?_, fun hge => ?_⟩
    · unfold selectContent
      rw [h]
      exact if_pos (Or.inl hs)
    · unfold selectContent
      rw [h]
      exact if_pos (Or.inr (Nat.lt_of_le_of_lt (trimWs_length_le s) hlen))
    · unfold selectContent
      rw [h]
      refine if_neg ?_
      rintro (hs | hlt)
      · have hs2 : s = [] := hs
        rw [hs2] at hge
        exact absurd hge (by decide)
      · have hlt2 : (trimWs s).length < 50 := hlt
        exact absurd hge (Nat.not_le.mpr hlt2)

/-- Witness for C8: a landmark text longer than 50 characters is selected; with
no landmark the body text is selected. -/
theorem claim_C8_content_selection_witness :
    selectContent domLong = longLandmarkText ∧
    selectContent { landmark := none, body := "body text".toList } =
      "body text".toList := by
  constructor
  · exact ((claim_C8_content_selection domLong).2 longLandmarkText rfl).2.2 (by decide)
  · exact (claim_C8_content_selection _).1 rfl

/-- Claim C9: for every request to the proxy's `/proxy` endpoint - a missing
(or empty, hence falsy) `url` query parameter yields a 400 JSON error without
attempting a fetch; with a URL present, a successful upstream fetch yields 200
with the raw body text; an upstream non-2xx status yields a 500 (non-200) JSON
body whose `details` string contains the upstream status; an upstream transport
error yields a 500 (non-200) JSON body with an error field. -/
theorem claim_C9_proxy_endpoint (q : Option Str) (up : UpstreamResult)
    (u : Str) (s : Nat) (st b m : Str) :
    ((q = none ∨ q = some []) →
      proxyEndpoint q up = ⟨400, false, .jsonErr urlRequiredMsg none⟩) ∧
    (q = some u → u ≠ [] →
      (up = .response s st b → isOk s = true →
        proxyEndpoint q up = ⟨200, true, .text b⟩) ∧
      (up = .response s st b → isOk s = false →
        proxyEndpoint q up =
          ⟨500, true, .jsonErr fetchFailedMsg (some (failedFetchDetail s st))⟩ ∧
        (proxyEndpoint q up).status ≠ 200 ∧
        (∃ pre post, failedFetchDetail s st = pre ++ natToStr s ++ post)) ∧
      (up = .transportError m →
        proxyEndpoint q up = ⟨500, true, .jsonErr fetchFailedMsg (some m)⟩ ∧
        (proxyEndpoint q up).status ≠ 200)) := by
  constructor
  · rintro (rfl | rfl)
    · rfl
    · rfl
  · rintro rfl hu
    refine ⟨fun hup hok => ?_, fun hup hok => ?_, fun hup => ?_⟩
    · subst hup
      simp only [proxyEndpoint]
      rw [if_neg hu]
      simp only [relayUpstream]
      rw [if_pos hok]
    · subst hup
      have hrep : proxyEndpoint (some u) (.response s st b) =
          ⟨500, true, .jsonErr fetchFailedMsg (some (failedFetchDetail s st))⟩ := by
        simp only [proxyEndpoint]
        rw [if_neg hu]
        simp only [relayUpstream]
        rw [if_neg (by simp [hok])]
      refine ⟨hrep, ?_, ?_⟩
      · rw [hrep]
        show (500 : Nat) ≠ 200
        decide
      · exact ⟨"Failed to fetch: ".toList, " ".toList ++ st, by
          simp [failedFetchDetail, List.append_assoc]⟩
    · subst hup
      have hrep : proxyEndpoint (some u) (.transportError m) =
          ⟨500, true, .jsonErr fetchFailedMsg (some m)⟩ := by
        simp only [proxyEndpoint]
        rw [if_neg hu]
        simp only [relayUpstream]
      refine ⟨hrep, ?_⟩
      rw [hrep]
      show (500 : Nat) ≠ 200
      decide

/-- Witness for C9 at concrete requests: a request without a `url` parameter
gets the 400 JSON error without a fetch; fetching a URL whose upstream answers
200 with body `"<html>hi</html>"` gets a 200 text reply; an upstream 404 gets a
500 JSON reply whose `details` is `"Failed to fetch: 404 Not Found"` (which
contains the status); an upstream transport error message `"boom"` gets a 500
JSON reply carrying it. -/
theorem claim_C9_proxy_endpoint_witness :
    proxyEndpoint none (.response 200 "OK".toList "<html>hi</html>".toList) =
      ⟨400, false, .jsonErr urlRequiredMsg none⟩ ∧
    proxyEndpoint (some "http://x".toList)
        (.response 200 "OK".toList "<html>hi</html>".toList) =
      ⟨200, true, .text "<html>hi</html>".toList⟩ ∧
    (proxyEndpoint (some "http://x".toList)
        (.response 404 "Not Found".toList ([] : Str)) =
      ⟨500, true, .jsonErr fetchFailedMsg
        (some "Failed to fetch: 404 Not Found".toList)⟩ ∧
      (∃ pre post,
        failedFetchDetail 404 "Not Found".toList = pre ++ natToStr 404 ++ post)) ∧
    proxyEndpoint (some "http://x".toList) (.transportError "boom".toList) =
      ⟨500, true, .jsonErr fetchFailedMsg (some "boom".toList)⟩ := by
  refine ⟨?_, ?_, ⟨?_, ?_⟩, ?_⟩
  · exact (claim_C9_proxy_endpoint none
      (.response 200 "OK".toList "<html>hi</html>".toList)
      [] 200 "OK".toList "<html>hi</html>".toList []).1 (Or.inl rfl)
  · exact ((claim_C9_proxy_endpoint (some "http://x".toList)
      (.response 200 "OK".toList "<html>hi</html>".toList)
      "http://x".toList 200 "OK".toList "<html>hi</html>".toList []).2
      rfl (by decide)).1 rfl (by decide)
  · exact (((claim_C9_proxy_endpoint (some "http://x".toList)
      (.response 404 "Not Found".toList ([] : Str))
      "http://x".toList 404 "Not Found".toList ([] : Str) []).2
      rfl (by decide)).2.1 rfl (by decide)).1
  · exact (((claim_C9_proxy_endpoint (some "http://x".toList)
      (.response 404 "Not Found".toList ([] : Str))
      "http://x".toList 404 "Not Found".toList ([] : Str) []).2
      rfl (by decide)).2.1 rfl (by decide)).2.2
  · exact (((claim_C9_proxy_endpoint (some "http://x".toList)
      (.transportError "boom".toList)
      "http://x".toList 404 "Not Found".toList [] "boom".toList).2
      rfl (by decide)).2.2 rfl).1

/-- Claim C10: every field of the draft record is a plain (non-null) string by
construction; a null or absent `location` or `summary` in the extraction
payload is mapped to the empty string (never null, even though the declared
response schema types `location` as nullable), and a null/absent `companyName`
or `role` is likewise mapped to the empty string; a present string value is
kept as-is. -/
theorem claim_C10_no_null_fields (ed : ExtractedData) (link today : Str) :
    (ed.companyName = none → (mkDraft ed link today).companyName = []) ∧
    (ed.role = none → (mkDraft ed link today).role = []) ∧
    (ed.location = none → (mkDraft ed link today).location = []) ∧
    (ed.summary = none → (mkDraft ed link today).notes = []) ∧
    (∀ s, ed.location = some s → (mkDraft ed link today).location = s) ∧
    (∀ s, ed.summary = some s → (mkDraft ed link today).notes = s) := by
  refine ⟨fun h => ?_, fun h => ?_, fun h => ?_, fun h => ?_,
    fun s h => ?_, fun s h => ?_⟩ <;>
    simp only [mkDraft, jsOrEmpty, jsFalsyOr, h] <;>
    split <;> simp_all

/-- Witness for C10: an extraction payload with all four fields null yields a
draft whose `companyName`, `role`, `location` and `notes` are all the empty
string; a payload with `location` present keeps it. -/
theorem claim_C10_no_null_fields_witness :
    (mkDraft ⟨none, none, none, none⟩ [] "2026-10-11".toList).companyName = [] ∧
    (mkDraft ⟨none, none, none, none⟩ [] "2026-10-11".toList).role = [] ∧
    (mkDraft ⟨none, none, none, none⟩ [] "2026-10-11".toList).location = [] ∧
    (mkDraft ⟨none, none, none, none⟩ [] "2026-10-11".toList).notes = [] ∧
    (mkDraft edScenarioA [] "2026-10-11".toList).location = "Remote".toList := by
  refine ⟨?_, ?_, ?_, ?_, ?_⟩
  · exact (claim_C10_no_null_fields ⟨none, none, none, none⟩ []
      "2026-10-11".toList).1 rfl
  · exact (claim_C10_no_null_fields ⟨none, none, none, none⟩ []
      "2026-10-11".toList).2.1 rfl
  · exact (claim_C10_no_null_fields ⟨none, none, none, none⟩ []
      "2026-10-11".toList).2.2.1 rfl
  · exact (claim_C10_no_null_fields ⟨none, none, none, none⟩ []
      "2026-10-11".toList).2.2.2.1 rfl
  · exact (claim_C10_no_null_fields edScenarioA []
      "2026-10-11".toList).2.2.2.2.1 "Remote".toList rfl
